import Mathlib

/-!
Verification of the simple_orm schema-synchronization / metadata engine.

This file shallowly embeds the parts of the `simple_orm` Python package that
the specified properties talk about:

- the entity / field descriptor model (`field.py`, `entity_meta.py`),
- the schema fingerprint `db_context._calculate_entities_hash`,
- the sync pipeline `db_context.sync_schema` together with
  `SchemaMetadata.record_entity_metadata` / `record_schema_version`,
- the DDL synthesizer `Entity.sync_schema`,
- the generator's drift protection `FileWriter.write_file` /
  `FileWriter._has_user_modifications`,
- `ForeignKey.resolve`, `Relationship.__get__`,
- the CRUD entry points `Entity.insert`, `Entity.update`, `Entity.delete`
  and `db_context.update_many`.

Python dictionaries are embedded as association lists in insertion order
(with the no-duplicate-keys property stated as a hypothesis where a proof
needs it); machine side effects on the database are embedded as explicit
state passing or as the list of SQL statements a call would execute; a
Python exception is an `Except.error`.  SHA-256 digesting is embedded by
its canonical preimage string: the digest function is deterministic, so
equal preimages give equal digests, and collision-resistant, so distinct
preimages are treated as producing distinct digests.
-/

namespace SimpleOrm

/-- A Python runtime value, restricted to the scalar kinds the modelled code
paths store in fields: integers, strings and booleans. -/
inductive Value where
  | vInt (n : Int)
  | vStr (s : String)
  | vBool (b : Bool)
deriving DecidableEq

/-- Python truthiness (`if not x`) of an optional field value: `None`, `0`,
`""` and `False` are falsy, everything else is truthy. -/
def pyTruthy : Option Value → Bool
  | none => false
  | some (Value.vInt n) => n != 0
  | some (Value.vStr s) => s != ""
  | some (Value.vBool b) => b

/-- The Python types that `field.py` maps to SQL types. -/
inductive PyType where
  | int
  | float
  | str
  | bool
  | datetime
  | decimal
deriving DecidableEq

/-- Embeds `py_type.__name__` as used in the hash signature of
`db_context._calculate_entities_hash`. -/
def pyTypeName : PyType → String
  | PyType.int => "int"
  | PyType.float => "float"
  | PyType.str => "str"
  | PyType.bool => "bool"
  | PyType.datetime => "datetime"
  | PyType.decimal => "Decimal"

/-- Embeds `Field.sql_type` from `field.py`: the Python type → SQLite type map. -/
def sqlTypeOf : PyType → String
  | PyType.int => "INTEGER"
  | PyType.float => "REAL"
  | PyType.str => "TEXT"
  | PyType.bool => "INTEGER"
  | PyType.datetime => "TEXT"
  | PyType.decimal => "REAL"

/-- Embeds `str(b)` for a Python bool, as interpolated by the f-string in
`_calculate_entities_hash`. -/
def pyBoolStr (b : Bool) : String :=
  if b then "True" else "False"

/-- A field descriptor (`Field` in `field.py`).  `ForeignKey` (a `Field`
subclass) is embedded by the `is_fk` flag together with the extra
`foreign_key` / `back_populates` attributes it carries; for a plain field
these are `false` / `none`. -/
structure FieldDef where
  name : String
  py_type : PyType
  primary_key : Bool
  nullable : Bool
  default : Option Value
  is_fk : Bool
  foreign_key : Option (String × String)
  back_populates : Option String
deriving DecidableEq

/-- An entity descriptor: the class-level data of an `Entity` subclass.
`fields` is `cls._fields.values()` in declaration order; the dict keys of
`cls._fields` are exactly the `name` components (set by `EntityMeta`). -/
structure EntityDef where
  table_name : String
  fields : List FieldDef
deriving DecidableEq

/-- Embeds `EntityMeta.registry`: a dict from class name to entity descriptor,
embedded as an association list in insertion order. -/
abbrev Registry := List (String × EntityDef)

/-- Embeds `sep.join(xs)` for Python strings. -/
def joinSep (sep : String) : List String → String
  | [] => ""
  | [x] => x
  | x :: y :: xs => x ++ sep ++ joinSep sep (y :: xs)

/-- Python `sorted` on strings: code-point lexicographic order, as a
Bool-valued comparator for `List.mergeSort`. -/
def strLe (a b : String) : Bool :=
  decide (a ≤ b)

/-- The per-field signature `f"{field_name}:{py_type.__name__}:{primary_key}:{nullable}"`
built by `_calculate_entities_hash` (the dict key equals `field.name`). -/
def fieldSig (f : FieldDef) : String :=
  f.name ++ ":" ++ pyTypeName f.py_type ++ ":" ++ pyBoolStr f.primary_key
    ++ ":" ++ pyBoolStr f.nullable

/-- Python dict indexing `d[k]` on an association list: the value of the
first (and, for a dict, only) entry with the given key. -/
def dictGet (R : Registry) (k : String) : Option EntityDef :=
  (R.find? (fun p => p.1 == k)).map Prod.snd

/-- The `fields` list built for one entity by `_calculate_entities_hash`:
field names sorted, each looked up in the field dict and rendered with
`fieldSig`.  Dict indexing by a key of the same dict always succeeds, so the
unreachable missing-key case is dropped by `filterMap`. -/
def fieldSigsOf (e : EntityDef) : List String :=
  ((e.fields.map FieldDef.name).mergeSort strLe).filterMap
    (fun n => (e.fields.find? (fun f => f.name == n)).map fieldSig)

/-- The per-entity signature `f"{cls_name}:{cls._table_name}:{'|'.join(fields)}"`. -/
def entitySig (cls_name : String) (e : EntityDef) : String :=
  cls_name ++ ":" ++ e.table_name ++ ":" ++ joinSep "|" (fieldSigsOf e)

/-- The `entity_signatures` list of `_calculate_entities_hash`: entity names
sorted, each entity looked up in the registry and rendered with `entitySig`. -/
def entitySigsOf (R : Registry) : List String :=
  ((R.map Prod.fst).mergeSort strLe).filterMap
    (fun n => (dictGet R n).map (fun e => entitySig n e))

/-- Embeds `db_context._calculate_entities_hash`, embedded by its canonical SHA-256
preimage (the `combined` string): the entity signatures joined with newlines.
The final `hashlib.sha256(combined.encode()).hexdigest()` step is
deterministic and collision-resistant, so equality and inequality of this
preimage mirror equality and inequality of the hex digest. -/
def calculate_entities_hash (R : Registry) : String :=
  joinSep "\n" (entitySigsOf R)

/-! Schema-edit operations used to state how the hash reacts to a change
of a single declaration. -/

/-- Replace a field's primary-key flag. -/
def setPrimaryKey (b : Bool) (f : FieldDef) : FieldDef :=
  { f with primary_key := b }

/-- Replace a field's nullability. -/
def setNullable (b : Bool) (f : FieldDef) : FieldDef :=
  { f with nullable := b }

/-- Replace a field's semantic (Python) type. -/
def setPyType (t : PyType) (f : FieldDef) : FieldDef :=
  { f with py_type := t }

/-- Replace a field's default value. -/
def setDefault (d : Option Value) (f : FieldDef) : FieldDef :=
  { f with default := d }

/-- Replace a foreign key's resolved target binding. -/
def setForeignKeyBinding (t : Option (String × String)) (f : FieldDef) : FieldDef :=
  { f with foreign_key := t }

/-- Replace a foreign key's back-populate name. -/
def setBackPopulates (bp : Option String) (f : FieldDef) : FieldDef :=
  { f with back_populates := bp }

/-- Apply `g` to the fields named `fname` of an entity. -/
def mapField (fname : String) (g : FieldDef → FieldDef) (e : EntityDef) : EntityDef :=
  { e with fields := e.fields.map (fun f => if f.name = fname then g f else f) }

/-- Apply `g` to the entities registered under `ename`. -/
def mapEntity (ename : String) (g : EntityDef → EntityDef) (R : Registry) : Registry :=
  R.map (fun p => if p.1 = ename then (p.1, g p.2) else p)

/-- Replace an entity's field list. -/
def setEntityFields (fs : List FieldDef) (e : EntityDef) : EntityDef :=
  { e with fields := fs }

/-! ### Helper lemmas: strings, joins and keyed lookups -/

theorem joinSep_cons (sep x : String) (l : List String) (h : l ≠ []) :
    joinSep sep (x :: l) = x ++ sep ++ joinSep sep l := by
  cases l with
  | nil => exact absurd rfl h
  | cons y ys => rfl

theorem str_left_cancel {a b c : String} (h : a ++ b = a ++ c) : b = c := by
  have hd := congrArg String.data h
  simp only [String.data_append] at hd
  exact String.ext (List.append_cancel_left hd)

theorem str_right_cancel {a b c : String} (h : a ++ c = b ++ c) : a = b := by
  have hd := congrArg String.data h
  simp only [String.data_append] at hd
  exact String.ext (List.append_cancel_right hd)

/-- Joining two lists that agree except at one position, where the entries
differ, gives different strings: the free monoid of strings is cancellative,
so the shared prefix and suffix cancel. -/
theorem joinSep_ne (sep : String) :
    ∀ (pre : List String) (x y : String) (post : List String), x ≠ y →
      joinSep sep (pre ++ x :: post) ≠ joinSep sep (pre ++ y :: post) := by
  intro pre
  induction pre with
  | nil =>
    intro x y post hxy h
    cases post with
    | nil => exact hxy h
    | cons z zs =>
      rw [List.nil_append, List.nil_append,
        joinSep_cons sep x (z :: zs) (by simp),
        joinSep_cons sep y (z :: zs) (by simp)] at h
      exact hxy (str_right_cancel (str_right_cancel h))
  | cons p ps ih =>
    intro x y post hxy h
    rw [List.cons_append, List.cons_append,
      joinSep_cons sep p (ps ++ x :: post) (by simp),
      joinSep_cons sep p (ps ++ y :: post) (by simp)] at h
    exact ih x y post hxy (str_left_cancel h)

section FindByKey

variable {α : Type} (key : α → String)

theorem find?_key_eq_none {l : List α} {k : String} :
    l.find? (fun a => key a == k) = none ↔ k ∉ l.map key := by
  rw [List.find?_eq_none]
  constructor
  · intro h hk
    obtain ⟨a, ha, hka⟩ := List.mem_map.mp hk
    exact h a ha (by simp [hka])
  · intro h a ha hpa
    exact h (List.mem_map.mpr ⟨a, ha, by simpa using hpa⟩)

theorem find?_key_of_mem_nodup {l : List α} (hn : (l.map key).Nodup)
    {a : α} {k : String} (ha : a ∈ l) (hk : key a = k) :
    l.find? (fun x => key x == k) = some a := by
  induction l with
  | nil => cases ha
  | cons b bs ih =>
    simp only [List.map_cons, List.nodup_cons] at hn
    rcases List.mem_cons.mp ha with rfl | hmem
    · simp [List.find?_cons, hk]
    · have hbk : (key b == k) = false := by
        simp only [beq_eq_false_iff_ne, ne_eq]
        intro hbk
        exact hn.1 (hbk ▸ hk ▸ List.mem_map_of_mem key hmem)
      simpa [List.find?_cons, hbk] using ih hn.2 hmem

theorem find?_key_eq_of_perm {l l' : List α} (h : l.Perm l')
    (hn : (l.map key).Nodup) (k : String) :
    l.find? (fun a => key a == k) = l'.find? (fun a => key a == k) := by
  have hn' : (l'.map key).Nodup := hn.perm (h.map key)
  cases hfind : l.find? (fun a => key a == k) with
  | none =>
    have hk : k ∉ l.map key := (find?_key_eq_none key).mp hfind
    have hk' : k ∉ l'.map key := fun hmem => hk (((h.map key).mem_iff).mpr hmem)
    exact ((find?_key_eq_none key).mpr hk').symm
  | some a =>
    have ha : a ∈ l := List.mem_of_find?_eq_some hfind
    have hpk : key a = k := by simpa using List.find?_some hfind
    exact (find?_key_of_mem_nodup key hn' (h.mem_iff.mp ha) hpk).symm

end FindByKey

theorem strLe_trans : ∀ a b c : String, strLe a b = true → strLe b c = true →
    strLe a c = true := by
  intro a b c hab hbc
  simp only [strLe, decide_eq_true_eq] at *
  exact le_trans hab hbc

theorem strLe_total : ∀ a b : String, (strLe a b || strLe b a) = true := by
  intro a b
  simp only [strLe, Bool.or_eq_true, decide_eq_true_eq]
  exact le_total a b

theorem mergeSort_strLe_sorted (l : List String) :
    (l.mergeSort strLe).Sorted (· ≤ ·) := by
  have h := List.sorted_mergeSort strLe_trans strLe_total l
  exact h.imp (fun hab => by simpa [strLe] using hab)

theorem mergeSort_strLe_eq_of_perm {l l' : List String} (h : l.Perm l') :
    l.mergeSort strLe = l'.mergeSort strLe :=
  List.eq_of_perm_of_sorted
    (((List.mergeSort_perm l strLe).trans h).trans (List.mergeSort_perm l' strLe).symm)
    (mergeSort_strLe_sorted l) (mergeSort_strLe_sorted l')

theorem nodup_mem_split {l : List String} (hn : l.Nodup) {a : String} (ha : a ∈ l) :
    ∃ pre post, l = pre ++ a :: post ∧ a ∉ pre ∧ a ∉ post := by
  obtain ⟨pre, post, rfl⟩ := List.append_of_mem ha
  rw [List.nodup_append] at hn
  refine ⟨pre, post, rfl, ?_, ?_⟩
  · intro hpa
    exact hn.2.2 hpa (List.mem_cons_self a post)
  · exact (List.nodup_cons.mp hn.2.1).1

/-! ### Helper lemmas: how the hash reacts to schema edits -/

theorem mapEntity_keys (ename : String) (g : EntityDef → EntityDef) (R : Registry) :
    (mapEntity ename g R).map Prod.fst = R.map Prod.fst := by
  unfold mapEntity
  rw [List.map_map]
  apply List.map_congr_left
  intro p _
  by_cases hp : p.1 = ename <;> simp [hp]

theorem dictGet_mapEntity (ename : String) (g : EntityDef → EntityDef)
    (R : Registry) (n : String) :
    dictGet (mapEntity ename g R) n
      = if n = ename then (dictGet R n).map g else dictGet R n := by
  unfold dictGet mapEntity
  rw [List.find?_map]
  have hpred : ((fun p : String × EntityDef => p.1 == n) ∘
      (fun p : String × EntityDef => if p.1 = ename then (p.1, g p.2) else p))
      = fun p : String × EntityDef => p.1 == n := by
    funext p
    by_cases hp : p.1 = ename <;> simp [hp]
  rw [hpred]
  cases hf : R.find? (fun p : String × EntityDef => p.1 == n) with
  | none => by_cases hne : n = ename <;> simp [hne]
  | some q =>
    have hq : q.1 = n := by simpa using List.find?_some hf
    by_cases hne : n = ename
    · simp [hne, hq]
    · simp [hne, hq]

theorem fields_map_name_mapField (fname : String) (g : FieldDef → FieldDef)
    (hg : ∀ f, (g f).name = f.name) (e : EntityDef) :
    (mapField fname g e).fields.map FieldDef.name = e.fields.map FieldDef.name := by
  unfold mapField
  simp only []
  rw [List.map_map]
  apply List.map_congr_left
  intro f _
  by_cases hf : f.name = fname <;> simp [hf, hg]

theorem find?_fields_mapField (fname : String) (g : FieldDef → FieldDef)
    (hg : ∀ f, (g f).name = f.name) (e : EntityDef) (m : String) :
    (mapField fname g e).fields.find? (fun f => f.name == m)
      = (e.fields.find? (fun f => f.name == m)).map
          (fun f => if f.name = fname then g f else f) := by
  unfold mapField
  simp only []
  rw [List.find?_map]
  have hpred : ((fun f : FieldDef => f.name == m) ∘
      (fun f => if f.name = fname then g f else f))
      = fun f : FieldDef => f.name == m := by
    funext f
    by_cases hf : f.name = fname <;> simp [Function.comp, hf, hg]
  rw [hpred]

theorem fieldSigsOf_mapField_eq (fname : String) (g : FieldDef → FieldDef)
    (hgn : ∀ f, (g f).name = f.name) (hgs : ∀ f, fieldSig (g f) = fieldSig f)
    (e : EntityDef) :
    fieldSigsOf (mapField fname g e) = fieldSigsOf e := by
  unfold fieldSigsOf
  rw [fields_map_name_mapField fname g hgn e]
  apply List.filterMap_congr
  intro m _
  rw [find?_fields_mapField fname g hgn e m]
  cases hf : e.fields.find? (fun f => f.name == m) with
  | none => rfl
  | some f =>
    by_cases hfn : f.name = fname <;> simp [hfn, hgs]

theorem entitySig_mapField_eq (n fname : String) (g : FieldDef → FieldDef)
    (hgn : ∀ f, (g f).name = f.name) (hgs : ∀ f, fieldSig (g f) = fieldSig f)
    (e : EntityDef) :
    entitySig n (mapField fname g e) = entitySig n e := by
  unfold entitySig
  rw [fieldSigsOf_mapField_eq fname g hgn hgs e]
  rfl

theorem entitySig_fields_perm (n : String) (e : EntityDef) (fs' : List FieldDef)
    (hperm : e.fields.Perm fs') (hnod : (e.fields.map FieldDef.name).Nodup) :
    entitySig n (setEntityFields fs' e) = entitySig n e := by
  unfold entitySig setEntityFields
  have hsigs : fieldSigsOf { e with fields := fs' } = fieldSigsOf e := by
    unfold fieldSigsOf
    simp only []
    rw [mergeSort_strLe_eq_of_perm ((hperm.map FieldDef.name).symm)]
    apply List.filterMap_congr
    intro m _
    rw [find?_key_eq_of_perm FieldDef.name hperm.symm (hnod.perm (hperm.map FieldDef.name))]
  rw [hsigs]

/-- A schema edit that leaves every entity signature unchanged leaves the
hash unchanged. -/
theorem hash_mapEntity_eq (ename : String) (g : EntityDef → EntityDef) (R : Registry)
    (hgs : ∀ (n : String) (e : EntityDef), entitySig n (g e) = entitySig n e) :
    calculate_entities_hash (mapEntity ename g R) = calculate_entities_hash R := by
  unfold calculate_entities_hash entitySigsOf
  rw [mapEntity_keys]
  congr 1
  apply List.filterMap_congr
  intro n _
  rw [dictGet_mapEntity]
  by_cases hne : n = ename
  · cases hd : dictGet R n with
    | none => simp [hne, hd]
    | some e => simp [hne, hd, hgs]
  · simp [hne]

theorem fieldSigsOf_mapField_split (fname : String) (g : FieldDef → FieldDef)
    (hgn : ∀ f, (g f).name = f.name) (e : EntityDef) (f : FieldDef)
    (hfind : e.fields.find? (fun x => x.name == fname) = some f)
    (hnod : (e.fields.map FieldDef.name).Nodup) :
    ∃ A B, fieldSigsOf (mapField fname g e) = A ++ fieldSig (g f) :: B ∧
      fieldSigsOf e = A ++ fieldSig f :: B := by
  have hfn : f.name = fname := by simpa using List.find?_some hfind
  have hmem : fname ∈ e.fields.map FieldDef.name :=
    hfn ▸ List.mem_map_of_mem FieldDef.name (List.mem_of_find?_eq_some hfind)
  have hsortnodup : ((e.fields.map FieldDef.name).mergeSort strLe).Nodup :=
    hnod.perm (List.mergeSort_perm _ strLe).symm
  have hsortmem : fname ∈ (e.fields.map FieldDef.name).mergeSort strLe :=
    (List.mergeSort_perm _ strLe).mem_iff.mpr hmem
  obtain ⟨pre, post, hsplit, hpre, hpost⟩ := nodup_mem_split hsortnodup hsortmem
  refine ⟨pre.filterMap
      (fun n => (e.fields.find? (fun x => x.name == n)).map fieldSig),
    post.filterMap
      (fun n => (e.fields.find? (fun x => x.name == n)).map fieldSig), ?_, ?_⟩
  · unfold fieldSigsOf
    rw [fields_map_name_mapField fname g hgn e, hsplit,
      List.filterMap_append, List.filterMap_cons]
    have hcentre : ((mapField fname g e).fields.find? (fun x => x.name == fname)).map fieldSig
        = some (fieldSig (g f)) := by
      rw [find?_fields_mapField fname g hgn e fname, hfind]
      simp [hfn]
    rw [hcentre]
    have hside : ∀ m ∈ pre ++ post,
        ((mapField fname g e).fields.find? (fun x => x.name == m)).map fieldSig
          = (e.fields.find? (fun x => x.name == m)).map fieldSig := by
      intro m hm
      have hmne : m ≠ fname := by
        rcases List.mem_append.mp hm with hm' | hm'
        · exact fun hh => hpre (hh ▸ hm')
        · exact fun hh => hpost (hh ▸ hm')
      rw [find?_fields_mapField fname g hgn e m]
      cases hfm : e.fields.find? (fun x => x.name == m) with
      | none => rfl
      | some fm =>
        have hfmn : fm.name = m := by simpa using List.find?_some hfm
        simp [hfmn, hmne]
    rw [List.filterMap_congr (fun m hm => hside m (List.mem_append_left post hm)),
      List.filterMap_congr (fun m hm => hside m (List.mem_append_right pre hm))]
  · unfold fieldSigsOf
    rw [hsplit, List.filterMap_append, List.filterMap_cons, hfind]
    rfl

theorem entitySig_mapField_ne (n fname : String) (g : FieldDef → FieldDef)
    (hgn : ∀ f, (g f).name = f.name) (e : EntityDef) (f : FieldDef)
    (hfind : e.fields.find? (fun x => x.name == fname) = some f)
    (hnod : (e.fields.map FieldDef.name).Nodup)
    (hne : fieldSig (g f) ≠ fieldSig f) :
    entitySig n (mapField fname g e) ≠ entitySig n e := by
  obtain ⟨A, B, h1, h2⟩ := fieldSigsOf_mapField_split fname g hgn e f hfind hnod
  unfold entitySig
  rw [h1, h2]
  intro h
  exact joinSep_ne "|" A _ _ B hne (str_left_cancel h)

theorem hash_mapEntity_ne (ename : String) (g : EntityDef → EntityDef)
    (R : Registry) (e : EntityDef)
    (hkeys : (R.map Prod.fst).Nodup)
    (hget : dictGet R ename = some e)
    (hsig : entitySig ename (g e) ≠ entitySig ename e) :
    calculate_entities_hash (mapEntity ename g R) ≠ calculate_entities_hash R := by
  have hmem : ename ∈ R.map Prod.fst := by
    unfold dictGet at hget
    cases hf : R.find? (fun p => p.1 == ename) with
    | none => rw [hf] at hget; cases hget
    | some q =>
      have hq : q.1 = ename := by simpa using List.find?_some hf
      exact hq ▸ List.mem_map_of_mem Prod.fst (List.mem_of_find?_eq_some hf)
  have hsortnodup : ((R.map Prod.fst).mergeSort strLe).Nodup :=
    hkeys.perm (List.mergeSort_perm _ strLe).symm
  have hsortmem : ename ∈ (R.map Prod.fst).mergeSort strLe :=
    (List.mergeSort_perm _ strLe).mem_iff.mpr hmem
  obtain ⟨pre, post, hsplit, hpre, hpost⟩ := nodup_mem_split hsortnodup hsortmem
  unfold calculate_entities_hash entitySigsOf
  rw [mapEntity_keys, hsplit, List.filterMap_append, List.filterMap_append,
    List.filterMap_cons, List.filterMap_cons]
  have hcentre1 : (dictGet (mapEntity ename g R) ename).map
      (fun e' => entitySig ename e') = some (entitySig ename (g e)) := by
    rw [dictGet_mapEntity]
    simp [hget]
  have hcentre2 : (dictGet R ename).map (fun e' => entitySig ename e')
      = some (entitySig ename e) := by
    simp [hget]
  rw [hcentre1, hcentre2]
  have hside : ∀ m ∈ pre ++ post,
      (dictGet (mapEntity ename g R) m).map (fun e' => entitySig m e')
        = (dictGet R m).map (fun e' => entitySig m e') := by
    intro m hm
    have hmne : m ≠ ename := by
      rcases List.mem_append.mp hm with hm' | hm'
      · exact fun hh => hpre (hh ▸ hm')
      · exact fun hh => hpost (hh ▸ hm')
    rw [dictGet_mapEntity, if_neg hmne]
  rw [List.filterMap_congr (fun m hm => hside m (List.mem_append_left post hm)),
    List.filterMap_congr (fun m hm => hside m (List.mem_append_right pre hm))]
  exact joinSep_ne "\n" _ _ _ _ hsig

/-! ### Helper lemmas: per-field signature changes -/

theorem pyTypeName_inj : ∀ t₁ t₂ : PyType, pyTypeName t₁ = pyTypeName t₂ → t₁ = t₂ := by
  intro t₁ t₂ h
  cases t₁ <;> cases t₂ <;> first | rfl | exact absurd h (by decide)

theorem pyBoolStr_length_ne {a b : Bool} (h : a ≠ b) :
    (pyBoolStr a).length ≠ (pyBoolStr b).length := by
  cases a <;> cases b <;> first | exact absurd rfl h | decide

theorem fieldSig_setPrimaryKey_ne {f : FieldDef} {b : Bool} (h : f.primary_key ≠ b) :
    fieldSig (setPrimaryKey b f) ≠ fieldSig f := by
  intro he
  have he' : f.name ++ ":" ++ pyTypeName f.py_type ++ ":" ++ pyBoolStr b
        ++ ":" ++ pyBoolStr f.nullable
      = f.name ++ ":" ++ pyTypeName f.py_type ++ ":" ++ pyBoolStr f.primary_key
        ++ ":" ++ pyBoolStr f.nullable := he
  have hl := congrArg String.length he'
  simp only [String.length_append] at hl
  have hb : (pyBoolStr b).length ≠ (pyBoolStr f.primary_key).length :=
    pyBoolStr_length_ne (Ne.symm h)
  omega

theorem fieldSig_setNullable_ne {f : FieldDef} {b : Bool} (h : f.nullable ≠ b) :
    fieldSig (setNullable b f) ≠ fieldSig f := by
  intro he
  have he' : f.name ++ ":" ++ pyTypeName f.py_type ++ ":" ++ pyBoolStr f.primary_key
        ++ ":" ++ pyBoolStr b
      = f.name ++ ":" ++ pyTypeName f.py_type ++ ":" ++ pyBoolStr f.primary_key
        ++ ":" ++ pyBoolStr f.nullable := he
  have hl := congrArg String.length he'
  simp only [String.length_append] at hl
  have hb : (pyBoolStr b).length ≠ (pyBoolStr f.nullable).length :=
    pyBoolStr_length_ne (Ne.symm h)
  omega

theorem fieldSig_setPyType_ne {f : FieldDef} {t : PyType} (h : f.py_type ≠ t) :
    fieldSig (setPyType t f) ≠ fieldSig f := by
  intro he
  have he' : f.name ++ ":" ++ pyTypeName t ++ ":" ++ pyBoolStr f.primary_key
        ++ ":" ++ pyBoolStr f.nullable
      = f.name ++ ":" ++ pyTypeName f.py_type ++ ":" ++ pyBoolStr f.primary_key
        ++ ":" ++ pyBoolStr f.nullable := he
  have hd := congrArg String.data he'
  simp only [String.data_append, List.append_assoc] at hd
  have h1 := List.append_cancel_left hd
  have h2 := List.append_cancel_left h1
  have h3 := List.append_cancel_right h2
  exact h (pyTypeName_inj t f.py_type (String.ext h3)).symm

theorem hash_eq_of_perm {R R' : Registry} (h : R.Perm R')
    (hn : (R.map Prod.fst).Nodup) :
    calculate_entities_hash R = calculate_entities_hash R' := by
  unfold calculate_entities_hash entitySigsOf
  rw [mergeSort_strLe_eq_of_perm (h.map Prod.fst)]
  congr 1
  apply List.filterMap_congr
  intro n _
  unfold dictGet
  rw [find?_key_eq_of_perm Prod.fst h hn]

/-! ### Demo schema shared by the concrete witnesses -/

/-- Integer primary-key field `id` (the inherited `Entity.id`). -/
def fId : FieldDef := ⟨"id", PyType.int, true, false, none, false, none, none⟩

/-- A plain text field. -/
def fName : FieldDef := ⟨"name", PyType.str, false, false, none, false, none, none⟩

/-- A resolved foreign key `author_id → authors.id` with a back-populate. -/
def fAuthorId : FieldDef :=
  ⟨"author_id", PyType.int, false, true, none, true, some ("authors", "id"), some "books"⟩

/-- Demo entity `Author`. -/
def eAuthor : EntityDef := ⟨"authors", [fId, fName]⟩

/-- Demo entity `Book`. -/
def eBook : EntityDef := ⟨"books", [fId, fAuthorId]⟩

/-- Demo registry with both entities. -/
def demoRegistry : Registry := [("Author", eAuthor), ("Book", eBook)]

/-- C1: the schema hash of `db_context._calculate_entities_hash` is invariant
under reordering of entity declarations and of field declarations within an
entity (names are sorted internally before hashing); it changes whenever a
field's primary-key flag, nullability or semantic type changes; and it is
unchanged when only a field's default value, a foreign key's target binding,
or a back-populate name changes. -/
theorem c1_entities_hash_structural_fingerprint :
    (∀ (R R' : Registry), R.Perm R' → (R.map Prod.fst).Nodup →
      calculate_entities_hash R = calculate_entities_hash R') ∧
    (∀ (R : Registry) (ename : String) (e : EntityDef) (fs' : List FieldDef),
      dictGet R ename = some e → e.fields.Perm fs' →
      (e.fields.map FieldDef.name).Nodup →
      calculate_entities_hash (mapEntity ename (setEntityFields fs') R)
        = calculate_entities_hash R) ∧
    (∀ (R : Registry) (ename fname : String) (e : EntityDef) (f : FieldDef) (b : Bool),
      (R.map Prod.fst).Nodup → dictGet R ename = some e →
      (e.fields.map FieldDef.name).Nodup →
      e.fields.find? (fun x => x.name == fname) = some f → f.primary_key ≠ b →
      calculate_entities_hash (mapEntity ename (mapField fname (setPrimaryKey b)) R)
        ≠ calculate_entities_hash R) ∧
    (∀ (R : Registry) (ename fname : String) (e : EntityDef) (f : FieldDef) (b : Bool),
      (R.map Prod.fst).Nodup → dictGet R ename = some e →
      (e.fields.map FieldDef.name).Nodup →
      e.fields.find? (fun x => x.name == fname) = some f → f.nullable ≠ b →
      calculate_entities_hash (mapEntity ename (mapField fname (setNullable b)) R)
        ≠ calculate_entities_hash R) ∧
    (∀ (R : Registry) (ename fname : String) (e : EntityDef) (f : FieldDef) (t : PyType),
      (R.map Prod.fst).Nodup → dictGet R ename = some e →
      (e.fields.map FieldDef.name).Nodup →
      e.fields.find? (fun x => x.name == fname) = some f → f.py_type ≠ t →
      calculate_entities_hash (mapEntity ename (mapField fname (setPyType t)) R)
        ≠ calculate_entities_hash R) ∧
    (∀ (R : Registry) (ename fname : String) (d : Option Value)
      (t : Option (String × String)) (bp : Option String),
      calculate_entities_hash (mapEntity ename (mapField fname (setDefault d)) R)
        = calculate_entities_hash R ∧
      calculate_entities_hash
          (mapEntity ename (mapField fname (setForeignKeyBinding t)) R)
        = calculate_entities_hash R ∧
      calculate_entities_hash
          (mapEntity ename (mapField fname (setBackPopulates bp)) R)
        = calculate_entities_hash R) := by
  refine ⟨?_, ?_, ?_, ?_, ?_, ?_⟩
  · intro R R' h hn
    exact hash_eq_of_perm h hn
  · intro R ename e fs' hget hperm hnod
    unfold calculate_entities_hash entitySigsOf
    rw [mapEntity_keys]
    congr 1
    apply List.filterMap_congr
    intro n _
    rw [dictGet_mapEntity]
    by_cases hne : n = ename
    · subst hne
      rw [if_pos rfl, hget]
      simp [entitySig_fields_perm n e fs' hperm hnod]
    · simp [hne]
  · intro R ename fname e f b hkeys hget hnod hfind hb
    exact hash_mapEntity_ne ename _ R e hkeys hget
      (entitySig_mapField_ne ename fname (setPrimaryKey b) (fun _ => rfl) e f hfind hnod
        (fieldSig_setPrimaryKey_ne hb))
  · intro R ename fname e f b hkeys hget hnod hfind hb
    exact hash_mapEntity_ne ename _ R e hkeys hget
      (entitySig_mapField_ne ename fname (setNullable b) (fun _ => rfl) e f hfind hnod
        (fieldSig_setNullable_ne hb))
  · intro R ename fname e f t hkeys hget hnod hfind ht
    exact hash_mapEntity_ne ename _ R e hkeys hget
      (entitySig_mapField_ne ename fname (setPyType t) (fun _ => rfl) e f hfind hnod
        (fieldSig_setPyType_ne ht))
  · intro R ename fname d t bp
    refine ⟨?_, ?_, ?_⟩
    · exact hash_mapEntity_eq ename _ R
        (fun n e => entitySig_mapField_eq n fname (setDefault d)
          (fun _ => rfl) (fun _ => rfl) e)
    · exact hash_mapEntity_eq ename _ R
        (fun n e => entitySig_mapField_eq n fname (setForeignKeyBinding t)
          (fun _ => rfl) (fun _ => rfl) e)
    · exact hash_mapEntity_eq ename _ R
        (fun n e => entitySig_mapField_eq n fname (setBackPopulates bp)
          (fun _ => rfl) (fun _ => rfl) e)

/-- Concrete witness for C1, on the two-entity demo registry. -/
theorem c1_entities_hash_structural_fingerprint_witness :
    calculate_entities_hash demoRegistry
        = calculate_entities_hash [("Book", eBook), ("Author", eAuthor)] ∧
    calculate_entities_hash
        (mapEntity "Author" (setEntityFields [fName, fId]) demoRegistry)
      = calculate_entities_hash demoRegistry ∧
    calculate_entities_hash
        (mapEntity "Author" (mapField "name" (setPrimaryKey true)) demoRegistry)
      ≠ calculate_entities_hash demoRegistry ∧
    calculate_entities_hash
        (mapEntity "Author" (mapField "name" (setNullable true)) demoRegistry)
      ≠ calculate_entities_hash demoRegistry ∧
    calculate_entities_hash
        (mapEntity "Author" (mapField "name" (setPyType PyType.int)) demoRegistry)
      ≠ calculate_entities_hash demoRegistry ∧
    calculate_entities_hash
        (mapEntity "Book" (mapField "author_id"
          (setDefault (some (Value.vInt 7)))) demoRegistry)
      = calculate_entities_hash demoRegistry ∧
    calculate_entities_hash
        (mapEntity "Book" (mapField "author_id" (setForeignKeyBinding none)) demoRegistry)
      = calculate_entities_hash demoRegistry ∧
    calculate_entities_hash
        (mapEntity "Book" (mapField "author_id"
          (setBackPopulates (some "library_books"))) demoRegistry)
      = calculate_entities_hash demoRegistry := by
  refine ⟨?_, ?_, ?_, ?_, ?_, ?_, ?_, ?_⟩
  · exact c1_entities_hash_structural_fingerprint.1 demoRegistry
      [("Book", eBook), ("Author", eAuthor)] (by decide) (by decide)
  · exact c1_entities_hash_structural_fingerprint.2.1 demoRegistry
      "Author" eAuthor [fName, fId] (by decide) (by decide) (by decide)
  · exact c1_entities_hash_structural_fingerprint.2.2.1 demoRegistry
      "Author" "name" eAuthor fName true (by decide) (by decide) (by decide)
      (by decide) (by decide)
  · exact c1_entities_hash_structural_fingerprint.2.2.2.1 demoRegistry
      "Author" "name" eAuthor fName true (by decide) (by decide) (by decide)
      (by decide) (by decide)
  · exact c1_entities_hash_structural_fingerprint.2.2.2.2.1 demoRegistry
      "Author" "name" eAuthor fName PyType.int (by decide) (by decide) (by decide)
      (by decide) (by decide)
  · exact (c1_entities_hash_structural_fingerprint.2.2.2.2.2 demoRegistry
      "Book" "author_id" (some (Value.vInt 7)) none (some "library_books")).1
  · exact (c1_entities_hash_structural_fingerprint.2.2.2.2.2 demoRegistry
      "Book" "author_id" (some (Value.vInt 7)) none (some "library_books")).2.1
  · exact (c1_entities_hash_structural_fingerprint.2.2.2.2.2 demoRegistry
      "Book" "author_id" (some (Value.vInt 7)) none (some "library_books")).2.2

/-! ### DDL synthesizer (`Entity.sync_schema` in `entity.py`) -/

/-- Embeds `key_words.KEY_WORDS`. -/
def KEY_WORDS : List String := ["order"]

/-- ASCII lowercase of one character (`str.lower` acts per character; only
ASCII letters occur in the modelled identifiers). -/
def charLower (c : Char) : Char :=
  if 'A' ≤ c ∧ c ≤ 'Z' then Char.ofNat (c.toNat + 32) else c

/-- Embeds `name.lower()` over the string's characters. -/
def strLower (s : String) : String := String.mk (s.data.map charLower)

/-- Embeds `key_words.get_column_name`: escape a column name if it is a SQL keyword. -/
def get_column_name (name : String) : String :=
  if KEY_WORDS.contains (strLower name) then "[" ++ name ++ "]" else name

/-- The column definition `Entity.sync_schema` appends to `fields_sql` for one
field.  In the source, the boolean-default branch runs *after*
`fields_sql.append(col)` and concatenates onto the (immutable) local string
`col`, so the `" DEFAULT 0/1"` suffix never reaches the appended entry; the
entry is exactly the string built here. -/
def columnSql (f : FieldDef) : String :=
  let name := get_column_name f.name
  let c1 := name ++ " " ++ sqlTypeOf f.py_type
  let c2 := if f.primary_key then
      c1 ++ " PRIMARY KEY" ++ (if f.py_type = PyType.int then " AUTOINCREMENT" else "")
    else c1
  if ¬ f.nullable then c2 ++ " NOT NULL" else c2

/-- The `FOREIGN KEY (col) REFERENCES table(col)` clauses contributed by one
field (empty for a plain field; an unresolved foreign key would crash the
Python tuple unpacking, which cannot happen after the resolver pass). -/
def fkClauses (f : FieldDef) : List String :=
  if f.is_fk then
    match f.foreign_key with
    | some (table, colname) =>
        ["FOREIGN KEY (" ++ f.name ++ ") REFERENCES " ++ table ++ "(" ++ colname ++ ")"]
    | none => []
  else []

/-- The full `CREATE TABLE IF NOT EXISTS` statement built by
`Entity.sync_schema`, with the exact whitespace of the triple-quoted
f-string. -/
def create_table_sql (e : EntityDef) : String :=
  "\n        CREATE TABLE IF NOT EXISTS " ++ e.table_name ++ " (\n            "
    ++ joinSep ", " (e.fields.map columnSql ++ (e.fields.map fkClauses).flatten)
    ++ "\n        )\n        "

/-! ### Database state and the sync pipeline (`db_context.sync_schema`,
`schema_metadata.py`) -/

/-- One row of the `_simple_orm_table_mappings` metadata table. -/
structure MetaRow where
  table_name : String
  column_name : String
  python_type : String
  sql_type : String
  is_primary_key : Int
  is_foreign_key : Int
  is_nullable : Int
  foreign_table : Option String
  foreign_column : Option String
  default_value : Option String
  back_populates : Option String
  created_at : String
  updated_at : String
deriving DecidableEq

/-- One row of the `_simple_orm_schema_version` table (the autoincrement
`version` column is the row's position in the list). -/
structure VersionRow where
  entities_hash : String
  applied_at : String
  entity_count : Nat
deriving DecidableEq

/-- The database state the sync pipeline touches: which tables exist, and the
contents of the two metadata tables. -/
structure DBState where
  tables : List String
  meta_rows : List MetaRow
  version_rows : List VersionRow
deriving DecidableEq

/-- Embeds `CREATE TABLE IF NOT EXISTS`: add a table name only when absent. -/
def addTableIfAbsent (n : String) (ts : List String) : List String :=
  if ts.contains n then ts else ts ++ [n]

/-- Embeds `SchemaMetadata.ensure_metadata_tables`: bootstrap the two metadata
tables idempotently. -/
def ensure_metadata_tables (db : DBState) : DBState :=
  let t1 := addTableIfAbsent "_simple_orm_table_mappings" db.tables
  { db with tables := addTableIfAbsent "_simple_orm_schema_version" t1 }

/-- Embeds `Entity.sync_schema`'s database effect: execute `create_table_sql`, i.e.
create the entity's table when absent (never alter an existing one). -/
def entity_sync_schema (e : EntityDef) (db : DBState) : DBState :=
  { db with tables := addTableIfAbsent e.table_name db.tables }

/-- JSON string escaping of the two characters `json.dumps` always escapes in
the defaults the model carries (backslash and double quote). -/
def jsonEscape (s : String) : String :=
  s.data.foldl
    (fun acc c =>
      if c = '\\' then acc ++ "\\\\"
      else if c = '"' then acc ++ "\\\""
      else acc.push c) ""

/-- Embeds `json.dumps(field.default)` for the scalar defaults the model carries
(every such value is JSON-serializable, so the `str()` fallback of
`record_entity_metadata` is unreachable here). -/
def serializeDefault : Value → String
  | Value.vInt n => toString n
  | Value.vStr s => "\"" ++ jsonEscape s ++ "\""
  | Value.vBool b => if b then "true" else "false"

/-- The metadata row `SchemaMetadata.record_entity_metadata` inserts for one
field (`ts` stands for the `datetime.now().isoformat()` timestamp). -/
def mkMetaRow (tn ts : String) (f : FieldDef) : MetaRow :=
  { table_name := tn
    column_name := f.name
    python_type := pyTypeName f.py_type
    sql_type := sqlTypeOf f.py_type
    is_primary_key := if f.primary_key then 1 else 0
    is_foreign_key := if f.is_fk then 1 else 0
    is_nullable := if f.nullable then 1 else 0
    foreign_table := if f.is_fk then f.foreign_key.map Prod.fst else none
    foreign_column := if f.is_fk then f.foreign_key.map Prod.snd else none
    default_value := f.default.map serializeDefault
    back_populates := if f.is_fk then f.back_populates else none
    created_at := ts
    updated_at := ts }

/-- Embeds `SchemaMetadata.record_entity_metadata`: delete every existing row for
the entity's table name, then insert one row per field in declaration
order. -/
def record_entity_metadata (ts : String) (e : EntityDef) (db : DBState) : DBState :=
  { db with meta_rows :=
      db.meta_rows.filter (fun r => r.table_name != e.table_name)
        ++ e.fields.map (mkMetaRow e.table_name ts) }

/-- Embeds `SchemaMetadata.record_schema_version`: append one version row. -/
def record_schema_version (h ts : String) (cnt : Nat) (db : DBState) : DBState :=
  { db with version_rows := db.version_rows ++ [⟨h, ts, cnt⟩] }

/-- The per-entity loop of `db_context.sync_schema`: create each entity's
table, then record its metadata. -/
def syncEntities (R : Registry) (ts : String) (db : DBState) : DBState :=
  R.foldl (fun acc p => record_entity_metadata ts p.2 (entity_sync_schema p.2 acc)) db

/-- Embeds `db_context.sync_schema`: bootstrap the metadata tables, sync every
registered entity and record its metadata, then compute the entities hash
and append a schema version row with the entity count.  The trailing
`await self.seed_data()` is an abstract user hook (the base class raises
`NotImplementedError`); it runs after the version row is recorded and is
outside the modelled metadata state. -/
def sync_schema (R : Registry) (ts : String) (db : DBState) : DBState :=
  record_schema_version (calculate_entities_hash R) ts R.length
    (syncEntities R ts (ensure_metadata_tables db))

/-! ### C3: boolean defaults never reach the generated DDL -/

/-- A boolean field with default `True` (e.g. `is_active`). -/
def fIsActive : FieldDef :=
  ⟨"is_active", PyType.bool, false, true, some (Value.vBool true), false, none, none⟩

/-- An integer field with a numeric default. -/
def fCount : FieldDef :=
  ⟨"count", PyType.int, false, true, some (Value.vInt 5), false, none, none⟩

/-- Demo entity with a boolean-default field and a numeric-default field. -/
def eSession : EntityDef := ⟨"sessions", [fId, fIsActive, fCount]⟩

set_option maxRecDepth 4000 in
/-- C3 (code-bug evidence): the spec says a field with a boolean default
gets a literal `DEFAULT 1` / `DEFAULT 0` clause in its column definition,
but in `Entity.sync_schema` the `col += f" DEFAULT {value}"` concatenation
runs after `fields_sql.append(col)` on an immutable string, so the emitted
column definition — and the whole CREATE TABLE statement — contains no
DEFAULT clause at all.  Numeric/string defaults indeed get no DEFAULT
clause, as the claim also states. -/
theorem c3_bool_default_clause_never_emitted :
    columnSql fIsActive = "is_active INTEGER" ∧
    columnSql fCount = "count INTEGER" ∧
    create_table_sql eSession
      = "\n        CREATE TABLE IF NOT EXISTS sessions (\n            id INTEGER PRIMARY KEY AUTOINCREMENT NOT NULL, is_active INTEGER, count INTEGER\n        )\n        " ∧
    ¬ ("DEFAULT".data <:+: (create_table_sql eSession).data) := by
  refine ⟨rfl, rfl, rfl, by decide⟩

/-! ### C2: every sync appends exactly one schema-version row -/

theorem syncEntities_version_rows (R : Registry) (ts : String) (db : DBState) :
    (syncEntities R ts db).version_rows = db.version_rows := by
  induction R generalizing db with
  | nil => rfl
  | cons p rest ih =>
    show (syncEntities rest ts
      (record_entity_metadata ts p.2 (entity_sync_schema p.2 db))).version_rows
        = db.version_rows
    rw [ih]
    rfl

theorem sync_schema_version_rows (R : Registry) (ts : String) (db : DBState) :
    (sync_schema R ts db).version_rows
      = db.version_rows ++ [⟨calculate_entities_hash R, ts, R.length⟩] := by
  unfold sync_schema record_schema_version
  simp only []
  rw [syncEntities_version_rows]
  rfl

/-- C2: every completed `sync_schema` call appends exactly one new schema
version row carrying the computed entities hash and the entity count — and
it does so unconditionally, even when the computed hash equals the hash of
the most recent stored version row. -/
theorem c2_sync_appends_exactly_one_version_row :
    (∀ (R : Registry) (ts : String) (db : DBState),
      (sync_schema R ts db).version_rows
        = db.version_rows ++ [⟨calculate_entities_hash R, ts, R.length⟩]) ∧
    (∀ (R : Registry) (ts : String) (db : DBState) (v : VersionRow),
      db.version_rows.getLast? = some v →
      v.entities_hash = calculate_entities_hash R →
      (sync_schema R ts db).version_rows
        = db.version_rows ++ [⟨calculate_entities_hash R, ts, R.length⟩]) := by
  constructor
  · intro R ts db
    exact sync_schema_version_rows R ts db
  · intro R ts db v _ _
    exact sync_schema_version_rows R ts db

/-- A version row already holding the demo registry's hash. -/
def demoVersionRow : VersionRow := ⟨calculate_entities_hash demoRegistry, "t0", 2⟩

/-- A database whose latest version row already has the current hash. -/
def demoVersionDB : DBState := ⟨[], [], [demoVersionRow]⟩

/-- Concrete witness for C2: syncing when the latest stored hash already
equals the computed hash still appends a new row. -/
theorem c2_sync_appends_exactly_one_version_row_witness :
    (sync_schema demoRegistry "t1" demoVersionDB).version_rows
      = demoVersionDB.version_rows
        ++ [⟨calculate_entities_hash demoRegistry, "t1", 2⟩] :=
  c2_sync_appends_exactly_one_version_row.2 demoRegistry "t1" demoVersionDB
    demoVersionRow rfl rfl

/-! ### C7: per-table metadata is fully replaced on every sync -/

theorem mkMetaRow_filter_same (tn ts : String) (fs : List FieldDef) :
    (fs.map (mkMetaRow tn ts)).filter (fun r => r.table_name == tn)
      = fs.map (mkMetaRow tn ts) := by
  rw [List.filter_eq_self]
  intro r hr
  obtain ⟨f, _, rfl⟩ := List.mem_map.mp hr
  simp [mkMetaRow]

theorem mkMetaRow_filter_other {tn t : String} (ts : String) (h : t ≠ tn)
    (fs : List FieldDef) :
    (fs.map (mkMetaRow tn ts)).filter (fun r => r.table_name == t) = [] := by
  rw [List.filter_eq_nil_iff]
  intro r hr
  obtain ⟨f, _, rfl⟩ := List.mem_map.mp hr
  simp [mkMetaRow]
  exact fun hh => h hh.symm

theorem record_meta_same_table (ts : String) (e : EntityDef) (db : DBState) :
    (record_entity_metadata ts e db).meta_rows.filter
        (fun r => r.table_name == e.table_name)
      = e.fields.map (mkMetaRow e.table_name ts) := by
  unfold record_entity_metadata
  simp only []
  rw [List.filter_append]
  have h1 : (db.meta_rows.filter (fun r => r.table_name != e.table_name)).filter
      (fun r => r.table_name == e.table_name) = [] := by
    rw [List.filter_filter, List.filter_eq_nil_iff]
    intro r _
    by_cases hr : r.table_name = e.table_name <;> simp [hr]
  rw [h1, mkMetaRow_filter_same, List.nil_append]

theorem record_meta_other_table (ts : String) (e : EntityDef) (db : DBState)
    {t : String} (h : t ≠ e.table_name) :
    (record_entity_metadata ts e db).meta_rows.filter (fun r => r.table_name == t)
      = db.meta_rows.filter (fun r => r.table_name == t) := by
  unfold record_entity_metadata
  simp only []
  rw [List.filter_append, mkMetaRow_filter_other ts h, List.append_nil,
    List.filter_filter]
  apply List.filter_congr
  intro r _
  by_cases hr : r.table_name = t
  · simp [hr, h]
  · simp [hr]

theorem syncEntities_other_table (R : Registry) (ts : String) {t : String}
    (h : ∀ p ∈ R, p.2.table_name ≠ t) (db : DBState) :
    (syncEntities R ts db).meta_rows.filter (fun r => r.table_name == t)
      = db.meta_rows.filter (fun r => r.table_name == t) := by
  induction R generalizing db with
  | nil => rfl
  | cons p rest ih =>
    show (syncEntities rest ts
        (record_entity_metadata ts p.2 (entity_sync_schema p.2 db))).meta_rows.filter
          (fun r => r.table_name == t)
      = db.meta_rows.filter (fun r => r.table_name == t)
    rw [ih (fun q hq => h q (List.mem_cons_of_mem p hq))]
    have hp : t ≠ p.2.table_name := fun hh => h p (List.mem_cons_self p rest) hh.symm
    exact record_meta_other_table ts p.2 { db with
      tables := addTableIfAbsent p.2.table_name db.tables } hp

theorem syncEntities_synced_table (R : Registry) (ts : String) (n : String)
    (e : EntityDef) (hnd : (R.map (fun p => p.2.table_name)).Nodup)
    (hmem : (n, e) ∈ R) (db : DBState) :
    (syncEntities R ts db).meta_rows.filter (fun r => r.table_name == e.table_name)
      = e.fields.map (mkMetaRow e.table_name ts) := by
  induction R generalizing db with
  | nil => cases hmem
  | cons p rest ih =>
    simp only [List.map_cons, List.nodup_cons] at hnd
    show (syncEntities rest ts
        (record_entity_metadata ts p.2 (entity_sync_schema p.2 db))).meta_rows.filter
          (fun r => r.table_name == e.table_name)
      = e.fields.map (mkMetaRow e.table_name ts)
    rcases List.mem_cons.mp hmem with heq | hmem'
    · have he : e = p.2 := congrArg Prod.snd heq
      rw [he]
      have hrest : ∀ q ∈ rest, q.2.table_name ≠ p.2.table_name := by
        intro q hq hh
        exact hnd.1 (hh ▸ List.mem_map_of_mem (fun p' => p'.2.table_name) hq)
      rw [syncEntities_other_table rest ts hrest]
      exact record_meta_same_table ts p.2 { db with
        tables := addTableIfAbsent p.2.table_name db.tables }
    · exact ih hnd.2 hmem' _

/-- C7: recording an entity's metadata deletes every existing row for that
table name and inserts exactly one row per current field (rows of other
tables are untouched), so after a sync the metadata table holds precisely
the current fields of each synced table — stale columns from a previous
schema revision are pruned. -/
theorem c7_metadata_delete_then_reinsert :
    (∀ (ts : String) (e : EntityDef) (db : DBState),
      (record_entity_metadata ts e db).meta_rows.filter
          (fun r => r.table_name == e.table_name)
        = e.fields.map (mkMetaRow e.table_name ts)) ∧
    (∀ (ts : String) (e : EntityDef) (db : DBState) (t : String),
      t ≠ e.table_name →
      (record_entity_metadata ts e db).meta_rows.filter (fun r => r.table_name == t)
        = db.meta_rows.filter (fun r => r.table_name == t)) ∧
    (∀ (ts : String) (e : EntityDef) (db : DBState),
      (record_entity_metadata ts e db).meta_rows
        = db.meta_rows.filter (fun r => r.table_name != e.table_name)
          ++ e.fields.map (mkMetaRow e.table_name ts)) ∧
    (∀ (R : Registry) (ts : String) (db : DBState) (n : String) (e : EntityDef),
      (R.map (fun p => p.2.table_name)).Nodup → (n, e) ∈ R →
      (sync_schema R ts db).meta_rows.filter (fun r => r.table_name == e.table_name)
        = e.fields.map (mkMetaRow e.table_name ts)) := by
  refine ⟨?_, ?_, ?_, ?_⟩
  · intro ts e db
    exact record_meta_same_table ts e db
  · intro ts e db t ht
    exact record_meta_other_table ts e db ht
  · intro ts e db
    rfl
  · intro R ts db n e hnd hmem
    show (syncEntities R ts (ensure_metadata_tables db)).meta_rows.filter
        (fun r => r.table_name == e.table_name)
      = e.fields.map (mkMetaRow e.table_name ts)
    exact syncEntities_synced_table R ts n e hnd hmem (ensure_metadata_tables db)

/-- A stale metadata row for table `authors` from an older schema revision. -/
def staleRow : MetaRow :=
  mkMetaRow "authors" "t0" ⟨"old_col", PyType.str, false, true, none, false, none, none⟩

/-- A database still holding the stale `authors` metadata row. -/
def staleMetaDB : DBState := ⟨[], [staleRow], []⟩

/-- Concrete witness for C7 on the demo registry and a stale database. -/
theorem c7_metadata_delete_then_reinsert_witness :
    (record_entity_metadata "t1" eAuthor staleMetaDB).meta_rows.filter
        (fun r => r.table_name == "authors")
      = eAuthor.fields.map (mkMetaRow "authors" "t1") ∧
    (record_entity_metadata "t1" eAuthor staleMetaDB).meta_rows.filter
        (fun r => r.table_name == "books")
      = staleMetaDB.meta_rows.filter (fun r => r.table_name == "books") ∧
    (sync_schema demoRegistry "t1" staleMetaDB).meta_rows.filter
        (fun r => r.table_name == "authors")
      = eAuthor.fields.map (mkMetaRow "authors" "t1") := by
  refine ⟨?_, ?_, ?_⟩
  · exact c7_metadata_delete_then_reinsert.1 "t1" eAuthor staleMetaDB
  · exact c7_metadata_delete_then_reinsert.2.1 "t1" eAuthor staleMetaDB "books"
      (by decide)
  · exact c7_metadata_delete_then_reinsert.2.2.2 demoRegistry "t1" staleMetaDB
      "Author" eAuthor (by decide) (by decide)

/-! ### C4: generator drift protection (`FileWriter.write_file`) -/

/-- The generator-relevant filesystem state for one output path: the file's
content when it exists, and the sidecar metadata when present (`some none`
is a sidecar whose JSON has no `sha256` entry; `_load_metadata` returning
a malformed/missing result is `none`). -/
structure GenFS where
  file : Option String
  sidecar : Option (Option String)
deriving DecidableEq

/-- Embeds `FileWriter._has_user_modifications`: a missing sidecar or a falsy
(`None` or empty) stored hash means no recorded generation, hence no
modifications; a missing file means no modifications; otherwise compare the
current content hash against the stored one.  `hashFn` stands for
`hashlib.sha256(content.encode()).hexdigest()`. -/
def has_user_modifications (hashFn : String → String) (fs : GenFS) : Bool :=
  match fs.sidecar with
  | none => false
  | some stored? =>
    match stored? with
    | none => false
    | some stored =>
      if stored = "" then false
      else
        match fs.file with
        | none => false
        | some cur => hashFn cur != stored

/-- Embeds `FileWriter.write_file`: when the file exists and force is off, a
detected user modification skips the write (state unchanged); otherwise the
rendered `content` is written and the sidecar is saved with the new content
hash.  The returned flag is `true` exactly when the file was written. -/
def write_file (hashFn : String → String) (content : String) (force : Bool)
    (fs : GenFS) : GenFS × Bool :=
  if fs.file.isSome ∧ force = false then
    if has_user_modifications hashFn fs then (fs, false)
    else (⟨some content, some (some (hashFn content))⟩, true)
  else (⟨some content, some (some (hashFn content))⟩, true)

/-- C4: a generator run writes (and records the new content hash) when the
output file does not exist, or when its current content hash equals the
recorded sidecar hash, or when force is set; when the file exists, force is
off and the current hash differs from the (non-empty — SHA-256 hexdigests
are 64 characters) recorded hash, the write is skipped and the on-disk
state is unchanged. -/
theorem c4_write_file_drift_protection :
    (∀ (hashFn : String → String) (content : String) (fs : GenFS),
      fs.file = none →
      write_file hashFn content false fs
        = (⟨some content, some (some (hashFn content))⟩, true)) ∧
    (∀ (hashFn : String → String) (content cur : String) (fs : GenFS),
      fs.file = some cur → fs.sidecar = some (some (hashFn cur)) →
      write_file hashFn content false fs
        = (⟨some content, some (some (hashFn content))⟩, true)) ∧
    (∀ (hashFn : String → String) (content : String) (fs : GenFS),
      write_file hashFn content true fs
        = (⟨some content, some (some (hashFn content))⟩, true)) ∧
    (∀ (hashFn : String → String) (content cur r : String) (fs : GenFS),
      fs.file = some cur → fs.sidecar = some (some r) →
      r ≠ "" → hashFn cur ≠ r →
      write_file hashFn content false fs = (fs, false)) := by
  refine ⟨?_, ?_, ?_, ?_⟩
  · intro hashFn content fs hfile
    unfold write_file
    rw [if_neg]
    simp [hfile]
  · intro hashFn content cur fs hfile hside
    unfold write_file
    by_cases hcur : hashFn cur = ""
    · rw [if_pos (by simp [hfile])]
      rw [if_neg (by simp [has_user_modifications, hside, hcur])]
    · rw [if_pos (by simp [hfile])]
      rw [if_neg (by simp [has_user_modifications, hside, hcur, hfile])]
  · intro hashFn content fs
    unfold write_file
    rw [if_neg (by simp)]
  · intro hashFn content cur r fs hfile hside hr hne
    unfold write_file
    rw [if_pos (by simp [hfile])]
    rw [if_pos (by simp [has_user_modifications, hside, hr, hfile, hne])]

/-- A stand-in digest function for the concrete witness. -/
def demoHash (s : String) : String := "#" ++ s

/-- Concrete witness for C4: all four branches at concrete states. -/
theorem c4_write_file_drift_protection_witness :
    write_file demoHash "new" false ⟨none, none⟩
      = (⟨some "new", some (some (demoHash "new"))⟩, true) ∧
    write_file demoHash "new" false ⟨some "old", some (some (demoHash "old"))⟩
      = (⟨some "new", some (some (demoHash "new"))⟩, true) ∧
    write_file demoHash "new" true ⟨some "edited", some (some (demoHash "old"))⟩
      = (⟨some "new", some (some (demoHash "new"))⟩, true) ∧
    write_file demoHash "new" false ⟨some "edited", some (some (demoHash "old"))⟩
      = (⟨some "edited", some (some (demoHash "old"))⟩, false) := by
  refine ⟨?_, ?_, ?_, ?_⟩
  · exact c4_write_file_drift_protection.1 demoHash "new" ⟨none, none⟩ rfl
  · exact c4_write_file_drift_protection.2.1 demoHash "new" "old"
      ⟨some "old", some (some (demoHash "old"))⟩ rfl rfl
  · exact c4_write_file_drift_protection.2.2.1 demoHash "new"
      ⟨some "edited", some (some (demoHash "old"))⟩
  · exact c4_write_file_drift_protection.2.2.2 demoHash "new" "edited"
      (demoHash "old") ⟨some "edited", some (some (demoHash "old"))⟩ rfl rfl
      (by decide) (by decide)

/-! ### C5: foreign-key target specifier polymorphism (`ForeignKey.resolve`) -/

/-- The Python exceptions the modelled code paths raise. -/
inductive OrmError where
  | keyError (k : String)
  | typeError (msg : String)
  | valueError (msg : String)
deriving DecidableEq

/-- A foreign-key target specifier: a literal entity name, a type handle, a
zero-argument callable returning a type handle, or a value of any other
type. -/
inductive FKTarget where
  | byName (s : String)
  | byType (e : EntityDef)
  | byCallable (f : Unit → EntityDef)
  | otherValue

/-- The target-class dispatch of `ForeignKey.resolve`: a string is looked up
in the registry (`KeyError` when absent), a type is used directly, a
callable is invoked, anything else raises
`TypeError("Invalid foreign key target")`. -/
def resolve_target (target : FKTarget) (R : Registry) : Except OrmError EntityDef :=
  match target with
  | FKTarget.byName s =>
    match dictGet R s with
    | some cls => Except.ok cls
    | none => Except.error (OrmError.keyError s)
  | FKTarget.byType e => Except.ok e
  | FKTarget.byCallable f => Except.ok (f ())
  | FKTarget.otherValue => Except.error (OrmError.typeError "Invalid foreign key target")

/-- The data `ForeignKey.resolve` stores on the field: the resolved
`(table, column)` binding and the propagated scalar type. -/
structure ResolvedFK where
  foreign_key : String × String
  py_type : PyType
deriving DecidableEq

/-- Embeds `ForeignKey.resolve` (its pure resolution part; the relationship
installation side effects are modelled separately): resolve the target
class, look up `target_column` among its fields (`ValueError` when absent),
propagate the target field's type and bind `(table_name, target_column)`. -/
def fk_resolve (target : FKTarget) (target_column : String) (R : Registry) :
    Except OrmError ResolvedFK :=
  match resolve_target target R with
  | Except.error e => Except.error e
  | Except.ok cls =>
    match cls.fields.find? (fun f => f.name == target_column) with
    | none => Except.error (OrmError.valueError
        ("Target column '" ++ target_column ++ "' not found"))
    | some tf => Except.ok ⟨(cls.table_name, target_column), tf.py_type⟩

/-- C5: specifying a foreign-key target by entity-name string, by the type
handle itself, or by a zero-argument callable returning that handle, yields
the identical resolved `(table, column)` pair and the same propagated field
type; a specifier of any other value type fails with a `TypeError`. -/
theorem c5_fk_target_specifier_polymorphism :
    (∀ (R : Registry) (n : String) (E : EntityDef) (c : String) (tf : FieldDef),
      dictGet R n = some E →
      E.fields.find? (fun f => f.name == c) = some tf →
      fk_resolve (FKTarget.byName n) c R
          = Except.ok ⟨(E.table_name, c), tf.py_type⟩ ∧
      fk_resolve (FKTarget.byType E) c R
          = Except.ok ⟨(E.table_name, c), tf.py_type⟩ ∧
      fk_resolve (FKTarget.byCallable (fun _ => E)) c R
          = Except.ok ⟨(E.table_name, c), tf.py_type⟩) ∧
    (∀ (R : Registry) (c : String),
      fk_resolve FKTarget.otherValue c R
        = Except.error (OrmError.typeError "Invalid foreign key target")) := by
  constructor
  · intro R n E c tf hget hfind
    refine ⟨?_, ?_, ?_⟩
    · simp [fk_resolve, resolve_target, hget, hfind]
    · simp [fk_resolve, resolve_target, hfind]
    · simp [fk_resolve, resolve_target, hfind]
  · intro R c
    rfl

/-- Concrete witness for C5: all three specifier forms resolve
`Author` / column `id` identically on the demo registry, and an invalid
specifier fails. -/
theorem c5_fk_target_specifier_polymorphism_witness :
    fk_resolve (FKTarget.byName "Author") "id" demoRegistry
        = Except.ok ⟨("authors", "id"), PyType.int⟩ ∧
    fk_resolve (FKTarget.byType eAuthor) "id" demoRegistry
        = Except.ok ⟨("authors", "id"), PyType.int⟩ ∧
    fk_resolve (FKTarget.byCallable (fun _ => eAuthor)) "id" demoRegistry
        = Except.ok ⟨("authors", "id"), PyType.int⟩ ∧
    fk_resolve FKTarget.otherValue "id" demoRegistry
        = Except.error (OrmError.typeError "Invalid foreign key target") := by
  have h := c5_fk_target_specifier_polymorphism.1 demoRegistry "Author" eAuthor
    "id" fId rfl rfl
  exact ⟨h.1, h.2.1, h.2.2,
    c5_fk_target_specifier_polymorphism.2 demoRegistry "id"⟩

/-! ### C6: back-populate accessor on unsaved instances
(`Relationship.__get__`) -/

/-- Embeds `query.Condition`: a SQL fragment with its parameters. -/
structure Condition where
  sql : String
  params : List Value
deriving DecidableEq

/-- Embeds `Column.__eq__`: `name = ?` with the compared value as parameter. -/
def columnEq (name : String) (v : Value) : Condition :=
  ⟨name ++ " = ?", [v]⟩

/-- The filter state of a `Query` (its `_filters` and `_params`). -/
structure QueryModel where
  filters : List String
  params : List Value
deriving DecidableEq

/-- Embeds `Entity.query()`: a fresh query with no filters. -/
def emptyQuery : QueryModel := ⟨[], []⟩

/-- Embeds `Query.filter` with a single condition. -/
def query_filter (q : QueryModel) (c : Condition) : QueryModel :=
  ⟨q.filters ++ [c.sql], q.params ++ c.params⟩

/-- Embeds `Query.filter_by` with a single keyword argument. -/
def query_filter_by (q : QueryModel) (k : String) (v : Value) : QueryModel :=
  ⟨q.filters ++ [k ++ " = ?"], q.params ++ [v]⟩

/-- A `Relationship` descriptor's configuration. -/
structure RelationshipDef where
  target_entity_name : String
  foreign_key_attr_name : String

/-- Embeds `Relationship.__get__` on an instance (`objId` is the instance's `id`
attribute value): validate the configured names against the registry
(raising the descriptive `ValueError`s of `_validate` when they are
unknown), then return — without any database access — a query pre-filtered
with the sentinel `id = -1` when the id is falsy, or filtered to
`fk_column == obj.id` otherwise. -/
def relationship_get (rel : RelationshipDef) (R : Registry) (objId : Option Value) :
    Except OrmError QueryModel :=
  match dictGet R rel.target_entity_name with
  | none => Except.error (OrmError.valueError
      ("Unknown entity '" ++ rel.target_entity_name ++ "'. Available: "
        ++ joinSep ", " (R.map Prod.fst)))
  | some target =>
    match target.fields.find? (fun f => f.name == rel.foreign_key_attr_name) with
    | none => Except.error (OrmError.valueError
        ("Unknown field '" ++ rel.foreign_key_attr_name ++ "' on "
          ++ rel.target_entity_name ++ ". Available: "
          ++ joinSep ", " (target.fields.map FieldDef.name)))
    | some _ =>
      if pyTruthy objId = false then
        Except.ok (query_filter_by emptyQuery "id" (Value.vInt (-1)))
      else
        match objId with
        | some v => Except.ok (query_filter emptyQuery
            (columnEq rel.foreign_key_attr_name v))
        | none => Except.ok (query_filter_by emptyQuery "id" (Value.vInt (-1)))

/-- C6: once the one-time name validation passes, a back-populate accessor
never raises: on an instance whose primary key is unset (falsy) it returns —
with no database lookup — a query pre-filtered with the sentinel `id = -1`
that matches no rows; on an instance with a truthy id it returns the query
filtered to the foreign-key column equal to that id. -/
theorem c6_backpopulate_accessor_unsaved_safe :
    ∀ (rel : RelationshipDef) (R : Registry) (target : EntityDef)
      (f : FieldDef) (objId : Option Value),
      dictGet R rel.target_entity_name = some target →
      target.fields.find? (fun x => x.name == rel.foreign_key_attr_name) = some f →
      (pyTruthy objId = false →
        relationship_get rel R objId
          = Except.ok ⟨["id = ?"], [Value.vInt (-1)]⟩) ∧
      (∀ v, objId = some v → pyTruthy objId = true →
        relationship_get rel R objId
          = Except.ok ⟨[rel.foreign_key_attr_name ++ " = ?"], [v]⟩) := by
  intro rel R target f objId hget hfind
  constructor
  · intro hfalsy
    simp [relationship_get, hget, hfind, hfalsy, query_filter_by, emptyQuery]
  · intro v hv htruthy
    subst hv
    simp [relationship_get, hget, hfind, htruthy, query_filter, emptyQuery, columnEq]

/-- Concrete witness for C6: the `books` back-populate of the demo schema,
accessed on an unsaved author (`id = None`) and on a saved one (`id = 5`). -/
theorem c6_backpopulate_accessor_unsaved_safe_witness :
    relationship_get ⟨"Book", "author_id"⟩ demoRegistry none
        = Except.ok ⟨["id = ?"], [Value.vInt (-1)]⟩ ∧
    relationship_get ⟨"Book", "author_id"⟩ demoRegistry (some (Value.vInt 5))
        = Except.ok ⟨["author_id = ?"], [Value.vInt 5]⟩ := by
  constructor
  · exact (c6_backpopulate_accessor_unsaved_safe ⟨"Book", "author_id"⟩
      demoRegistry eBook fAuthorId none rfl rfl).1 rfl
  · exact (c6_backpopulate_accessor_unsaved_safe ⟨"Book", "author_id"⟩
      demoRegistry eBook fAuthorId (some (Value.vInt 5)) rfl rfl).2
      (Value.vInt 5) rfl (by decide)

/-! ### Entity instances and CRUD (`Entity.insert` / `update` / `delete`,
`db_context.update_many`) -/

/-- An entity instance: its class-level data (table name, field
descriptors) and its attribute dictionary.  After `__init__` every field
name is bound (possibly to `None`); attribute assignment shadows the
previous binding. -/
structure EntityInstance where
  table_name : String
  fields : List FieldDef
  vals : List (String × Option Value)
deriving DecidableEq

/-- Embeds `getattr(obj, n)`: the most recent binding of attribute `n` (a field
never assigned — impossible after `__init__` — reads as `None`, matching
the `None` defaults of the modelled fields). -/
def getattrI (inst : EntityInstance) (n : String) : Option Value :=
  match inst.vals.find? (fun p => p.1 == n) with
  | some p => p.2
  | none => none

/-- Embeds `setattr(obj, n, v)`. -/
def setattrI (inst : EntityInstance) (n : String) (v : Option Value) : EntityInstance :=
  { inst with vals := (n, v) :: inst.vals }

/-- Embeds `Field.python_to_sql` on the value kinds the model carries: booleans
become 0/1 integers, `None` stays `None`, everything else passes through. -/
def python_to_sql : Option Value → Option Value
  | none => none
  | some (Value.vBool b) => some (Value.vInt (if b then 1 else 0))
  | some x => some x

/-- One `conn.execute(sql, params)` call. -/
structure SqlStmt where
  sql : String
  params : List (Option Value)
deriving DecidableEq

/-- The field loop of `Entity.insert`: integer primary keys are skipped
(AUTOINCREMENT), a string primary key gets a generated UUID when its value
is `None` (`uuidStr` stands for `str(uuid.uuid4())`) and is emitted like
any other column; every other field is emitted with its converted value.
Returns the accumulated `(fields, values, placeholders)` and the instance
after the loop's `setattr` calls. -/
def insertFields (uuidStr : String) :
    List FieldDef → EntityInstance →
      (List String × List (Option Value) × List String) × EntityInstance
  | [], inst => (([], [], []), inst)
  | f :: rest, inst =>
    if f.primary_key ∧ f.py_type = PyType.int then
      insertFields uuidStr rest inst
    else if f.primary_key ∧ f.py_type = PyType.str then
      let inst' := if getattrI inst f.name = none then
          setattrI inst f.name (some (Value.vStr uuidStr))
        else inst
      let name := get_column_name f.name
      let val := getattrI inst' f.name
      let r := insertFields uuidStr rest inst'
      ((name :: r.1.1, python_to_sql val :: r.1.2.1, "?" :: r.1.2.2), r.2)
    else
      let name := get_column_name f.name
      let val := getattrI inst f.name
      let r := insertFields uuidStr rest inst
      ((name :: r.1.1, python_to_sql val :: r.1.2.1, "?" :: r.1.2.2), r.2)

/-- Embeds `Entity.insert` (without the cascade step, which only runs for children
registered via `add_child`): build the INSERT statement from the field
loop, then set `self.id = cur.lastrowid` only when the primary key's type
is integer. -/
def entityInsert (uuidStr : String) (lastrowid : Int) (inst : EntityInstance) :
    SqlStmt × EntityInstance :=
  let pk_field := inst.fields.find? (fun f => f.primary_key)
  let r := insertFields uuidStr inst.fields inst
  let sql := "INSERT INTO " ++ inst.table_name ++ " (" ++ joinSep ", " r.1.1
    ++ ") VALUES (" ++ joinSep ", " r.1.2.2 ++ ")"
  let inst2 := match pk_field with
    | some pkf =>
      if pkf.py_type = PyType.int then
        setattrI r.2 "id" (some (Value.vInt lastrowid))
      else r.2
    | none => r.2
  (⟨sql, r.1.2.1⟩, inst2)

/-- Embeds `Entity.update`: raise before any database access when the instance has
a falsy id; otherwise produce the UPDATE statement over the non-primary-key
fields with the id appended for the WHERE clause. -/
def entityUpdate (inst : EntityInstance) : Except OrmError SqlStmt :=
  if pyTruthy (getattrI inst "id") = false then
    Except.error (OrmError.valueError
      "Cannot update entity without an id. Use insert() for new entities.")
  else
    let nonPk := inst.fields.filter (fun f => !f.primary_key)
    let fields := nonPk.map (fun f => get_column_name f.name ++ " = ?")
    let values := nonPk.map (fun f => python_to_sql (getattrI inst f.name))
    Except.ok ⟨"UPDATE " ++ inst.table_name ++ " SET " ++ joinSep ", " fields
      ++ " WHERE id = ?", values ++ [getattrI inst "id"]⟩

/-- Embeds `Entity.delete`: raise before any database access when the instance has
a falsy id; otherwise produce the DELETE statement and reset `self.id` to
`None` after the commit. -/
def entityDelete (inst : EntityInstance) :
    Except OrmError (SqlStmt × EntityInstance) :=
  if pyTruthy (getattrI inst "id") = false then
    Except.error (OrmError.valueError "Cannot delete entity without an id.")
  else
    Except.ok (⟨"DELETE FROM " ++ inst.table_name ++ " WHERE id = ?",
      [getattrI inst "id"]⟩, setattrI inst "id" none)

/-- One `conn.executemany(sql, rows)` call. -/
structure BatchStmt where
  sql : String
  rows : List (List (Option Value))
deriving DecidableEq

/-- The insertion-ordered distinct `type(e)` keys of a batch (a class is
its table name plus field descriptors here). -/
def groupKeys (es : List EntityInstance) : List (String × List FieldDef) :=
  es.foldl
    (fun acc e =>
      if (e.table_name, e.fields) ∈ acc then acc else acc ++ [(e.table_name, e.fields)])
    []

/-- One parameter row of `db_context.update_many`: converted non-primary-key
values followed by the raw id for the WHERE clause. -/
def updateManyRow (fieldNames : List String) (e : EntityInstance) :
    List (Option Value) :=
  fieldNames.map (fun n => python_to_sql (getattrI e n)) ++ [getattrI e "id"]

/-- Embeds `db_context.update_many`: an empty batch is a no-op; otherwise every
entity's id is checked (raising `ValueError` — whose message interpolates
the entity's address-dependent repr, abbreviated here — before any
connection is opened), then the batch is grouped by concrete type and one
multi-row UPDATE per group is executed (this path joins raw `f.name`
column names, without keyword escaping). -/
def update_many (es : List EntityInstance) : Except OrmError (List BatchStmt) :=
  if es.isEmpty then Except.ok []
  else
    match es.find? (fun e => !(pyTruthy (getattrI e "id"))) with
    | some e => Except.error (OrmError.valueError
        ("Cannot update entity without an id: " ++ e.table_name ++ " instance"))
    | none =>
      Except.ok ((groupKeys es).map (fun k =>
        let items := es.filter (fun e => e.table_name == k.1 && e.fields == k.2)
        let fieldNames := (k.2.filter (fun f => !f.primary_key)).map FieldDef.name
        ⟨"UPDATE " ++ k.1 ++ " SET "
            ++ joinSep ", " (fieldNames.map (fun n => n ++ " = ?"))
            ++ " WHERE id = ?",
          items.map (updateManyRow fieldNames)⟩))

/-! ### Helper lemmas: attribute dictionary and the insert loop -/

theorem getattr_setattr_same (inst : EntityInstance) (n : String) (v : Option Value) :
    getattrI (setattrI inst n v) n = v := by
  simp [getattrI, setattrI, List.find?_cons]

theorem getattr_setattr_other (inst : EntityInstance) {n m : String}
    (v : Option Value) (h : m ≠ n) :
    getattrI (setattrI inst n v) m = getattrI inst m := by
  have hb : (n == m) = false := by
    simp only [beq_eq_false_iff_ne, ne_eq]
    exact fun hh => h hh.symm
  simp [getattrI, setattrI, List.find?_cons, hb]

theorem insertFields_untouched (uuidStr : String) :
    ∀ (fs : List FieldDef) (inst : EntityInstance) (n : String),
      (∀ f ∈ fs, f.name ≠ n) →
      getattrI ((insertFields uuidStr fs inst).2) n = getattrI inst n := by
  intro fs
  induction fs with
  | nil => intro inst n _; rfl
  | cons f rest ih =>
    intro inst n h
    have hfn : f.name ≠ n := h f (List.mem_cons_self f rest)
    have htail : ∀ g ∈ rest, g.name ≠ n := fun g hg => h g (List.mem_cons_of_mem f hg)
    unfold insertFields
    by_cases h1 : f.primary_key ∧ f.py_type = PyType.int
    · rw [if_pos h1]
      exact ih inst n htail
    · rw [if_neg h1]
      by_cases h2 : f.primary_key ∧ f.py_type = PyType.str
      · rw [if_pos h2]
        simp only []
        rw [ih _ n htail]
        by_cases h3 : getattrI inst f.name = none
        · rw [if_pos h3, getattr_setattr_other inst _ (fun hh => hfn hh.symm)]
        · rw [if_neg h3]
      · rw [if_neg h2]
        exact ih inst n htail

theorem insertFields_sets_strpk (uuidStr : String) :
    ∀ (fs : List FieldDef) (inst : EntityInstance) (f : FieldDef),
      f ∈ fs → f.primary_key = true → f.py_type = PyType.str →
      (fs.map FieldDef.name).Nodup → getattrI inst f.name = none →
      getattrI ((insertFields uuidStr fs inst).2) f.name
        = some (Value.vStr uuidStr) := by
  intro fs
  induction fs with
  | nil => intro inst f hf; cases hf
  | cons g rest ih =>
    intro inst f hf hpk hstr hnd hnone
    simp only [List.map_cons, List.nodup_cons] at hnd
    rcases List.mem_cons.mp hf with rfl | hmem
    · unfold insertFields
      rw [if_neg (by rw [hstr]; simp)]
      rw [if_pos (by rw [hstr]; simp [hpk])]
      simp only []
      rw [if_pos hnone]
      have hrest : ∀ g' ∈ rest, g'.name ≠ f.name := by
        intro g' hg' hh
        exact hnd.1 (hh ▸ List.mem_map_of_mem FieldDef.name hg')
      rw [insertFields_untouched uuidStr rest _ f.name hrest]
      exact getattr_setattr_same inst f.name (some (Value.vStr uuidStr))
    · have hgf : g.name ≠ f.name := by
        intro hh
        exact hnd.1 (hh ▸ List.mem_map_of_mem FieldDef.name hmem)
      unfold insertFields
      by_cases h1 : g.primary_key ∧ g.py_type = PyType.int
      · rw [if_pos h1]
        exact ih inst f hmem hpk hstr hnd.2 hnone
      · rw [if_neg h1]
        by_cases h2 : g.primary_key ∧ g.py_type = PyType.str
        · rw [if_pos h2]
          simp only []
          by_cases h3 : getattrI inst g.name = none
          · rw [if_pos h3]
            refine ih _ f hmem hpk hstr hnd.2 ?_
            rw [getattr_setattr_other inst _ (fun hh => hgf hh.symm)]
            exact hnone
          · rw [if_neg h3]
            exact ih inst f hmem hpk hstr hnd.2 hnone
        · rw [if_neg h2]
          exact ih inst f hmem hpk hstr hnd.2 hnone

theorem insertFields_emits_strpk (uuidStr : String) :
    ∀ (fs : List FieldDef) (inst : EntityInstance) (f : FieldDef),
      f ∈ fs → f.primary_key = true → f.py_type = PyType.str →
      (fs.map FieldDef.name).Nodup → getattrI inst f.name = none →
      get_column_name f.name ∈ (insertFields uuidStr fs inst).1.1 ∧
      some (Value.vStr uuidStr) ∈ (insertFields uuidStr fs inst).1.2.1 := by
  intro fs
  induction fs with
  | nil => intro inst f hf; cases hf
  | cons g rest ih =>
    intro inst f hf hpk hstr hnd hnone
    simp only [List.map_cons, List.nodup_cons] at hnd
    rcases List.mem_cons.mp hf with rfl | hmem
    · unfold insertFields
      rw [if_neg (by rw [hstr]; simp)]
      rw [if_pos (by rw [hstr]; simp [hpk])]
      simp only []
      rw [if_pos hnone]
      constructor
      · exact List.mem_cons_self _ _
      · have hval : getattrI (setattrI inst f.name (some (Value.vStr uuidStr))) f.name
            = some (Value.vStr uuidStr) :=
          getattr_setattr_same inst f.name (some (Value.vStr uuidStr))
        rw [hval]
        exact List.mem_cons_self _ _
    · have hgf : g.name ≠ f.name := by
        intro hh
        exact hnd.1 (hh ▸ List.mem_map_of_mem FieldDef.name hmem)
      unfold insertFields
      by_cases h1 : g.primary_key ∧ g.py_type = PyType.int
      · rw [if_pos h1]
        exact ih inst f hmem hpk hstr hnd.2 hnone
      · rw [if_neg h1]
        by_cases h2 : g.primary_key ∧ g.py_type = PyType.str
        · rw [if_pos h2]
          simp only []
          by_cases h3 : getattrI inst g.name = none
          · rw [if_pos h3]
            have hr := ih (setattrI inst g.name (some (Value.vStr uuidStr))) f hmem
              hpk hstr hnd.2 (by
                rw [getattr_setattr_other inst _ (fun hh => hgf hh.symm)]
                exact hnone)
            exact ⟨List.mem_cons_of_mem _ hr.1, List.mem_cons_of_mem _ hr.2⟩
          · rw [if_neg h3]
            have hr := ih inst f hmem hpk hstr hnd.2 hnone
            exact ⟨List.mem_cons_of_mem _ hr.1, List.mem_cons_of_mem _ hr.2⟩
        · rw [if_neg h2]
          have hr := ih inst f hmem hpk hstr hnd.2 hnone
          exact ⟨List.mem_cons_of_mem _ hr.1, List.mem_cons_of_mem _ hr.2⟩

/-- C8: inserting an entity whose primary key is string-typed and unset
leaves the instance with a non-null auto-generated identifier (the UUID,
which is emitted as an INSERT column and parameter) that is independent of
the driver-assigned `lastrowid`; the primary key is set from `lastrowid`
only when its type is integer. -/
theorem c8_string_pk_gets_uuid_not_lastrowid :
    (∀ (uuidStr : String) (rowid : Int) (inst : EntityInstance) (pkf : FieldDef),
      inst.fields.find? (fun f => f.primary_key) = some pkf →
      pkf.py_type = PyType.str →
      (inst.fields.map FieldDef.name).Nodup →
      getattrI inst pkf.name = none →
      getattrI (entityInsert uuidStr rowid inst).2 pkf.name
          = some (Value.vStr uuidStr) ∧
      get_column_name pkf.name ∈ (insertFields uuidStr inst.fields inst).1.1 ∧
      some (Value.vStr uuidStr) ∈ (entityInsert uuidStr rowid inst).1.params ∧
      (entityInsert uuidStr rowid inst).2 = (entityInsert uuidStr 0 inst).2) ∧
    (∀ (uuidStr : String) (rowid : Int) (inst : EntityInstance) (pkf : FieldDef),
      inst.fields.find? (fun f => f.primary_key) = some pkf →
      pkf.py_type = PyType.int →
      getattrI (entityInsert uuidStr rowid inst).2 "id"
        = some (Value.vInt rowid)) := by
  constructor
  · intro uuidStr rowid inst pkf hfind hstr hnd hnone
    have hpk : pkf.primary_key = true := List.find?_some hfind
    have hmem : pkf ∈ inst.fields := List.mem_of_find?_eq_some hfind
    have hstr' : ¬ pkf.py_type = PyType.int := by rw [hstr]; simp
    refine ⟨?_, ?_, ?_, ?_⟩
    · show getattrI (entityInsert uuidStr rowid inst).2 pkf.name = _
      unfold entityInsert
      simp only [hfind]
      rw [if_neg hstr']
      exact insertFields_sets_strpk uuidStr inst.fields inst pkf hmem hpk hstr hnd hnone
    · exact (insertFields_emits_strpk uuidStr inst.fields inst pkf hmem hpk
        hstr hnd hnone).1
    · show some (Value.vStr uuidStr) ∈ (insertFields uuidStr inst.fields inst).1.2.1
      exact (insertFields_emits_strpk uuidStr inst.fields inst pkf hmem hpk
        hstr hnd hnone).2
    · unfold entityInsert
      simp only [hfind]
      rw [if_neg hstr', if_neg hstr']
  · intro uuidStr rowid inst pkf hfind hint
    unfold entityInsert
    simp only [hfind]
    rw [if_pos hint]
    exact getattr_setattr_same _ "id" (some (Value.vInt rowid))

/-- A string-primary-key field (`id = Field(str, primary_key=True)`). -/
def fUuidPk : FieldDef := ⟨"id", PyType.str, true, false, none, false, none, none⟩

/-- An unsaved instance of an entity with a string primary key. -/
def apiKeyInstance : EntityInstance :=
  ⟨"api_keys", [fUuidPk, fName], [("id", none), ("name", some (Value.vStr "k1"))]⟩

/-- An unsaved instance of the integer-primary-key `Book` entity. -/
def bookNew : EntityInstance :=
  ⟨"books", [fId, fAuthorId], [("id", none), ("author_id", some (Value.vInt 3))]⟩

/-- Concrete witness for C8: a string-pk insert gets the UUID (for any
driver row id — 42 here), an integer-pk insert gets `lastrowid`. -/
theorem c8_string_pk_gets_uuid_not_lastrowid_witness :
    getattrI (entityInsert "u-123" 42 apiKeyInstance).2 "id"
        = some (Value.vStr "u-123") ∧
    "id" ∈ (insertFields "u-123" apiKeyInstance.fields apiKeyInstance).1.1 ∧
    some (Value.vStr "u-123") ∈ (entityInsert "u-123" 42 apiKeyInstance).1.params ∧
    (entityInsert "u-123" 42 apiKeyInstance).2
        = (entityInsert "u-123" 0 apiKeyInstance).2 ∧
    getattrI (entityInsert "ignored" 7 bookNew).2 "id" = some (Value.vInt 7) := by
  have h := c8_string_pk_gets_uuid_not_lastrowid.1 "u-123" 42 apiKeyInstance
    fUuidPk rfl rfl (by decide) rfl
  exact ⟨h.1, h.2.1, h.2.2.1, h.2.2.2,
    c8_string_pk_gets_uuid_not_lastrowid.2 "ignored" 7 bookNew fId rfl rfl⟩

/-- C9: `update()` and `delete()` on an instance with a falsy primary key,
and `update_many` on a batch containing any entity with a falsy primary
key, raise `ValueError` before any SQL statement is produced or any
connection is opened (an error result carries no statements). -/
theorem c9_missing_id_fails_before_io :
    (∀ (inst : EntityInstance), pyTruthy (getattrI inst "id") = false →
      entityUpdate inst = Except.error (OrmError.valueError
        "Cannot update entity without an id. Use insert() for new entities.")) ∧
    (∀ (inst : EntityInstance), pyTruthy (getattrI inst "id") = false →
      entityDelete inst = Except.error (OrmError.valueError
        "Cannot delete entity without an id.")) ∧
    (∀ (es : List EntityInstance) (e : EntityInstance), e ∈ es →
      pyTruthy (getattrI e "id") = false →
      ∃ m, update_many es = Except.error (OrmError.valueError m)) := by
  refine ⟨?_, ?_, ?_⟩
  · intro inst h
    simp [entityUpdate, h]
  · intro inst h
    simp [entityDelete, h]
  · intro es e he hid
    have hne : es.isEmpty = false := by
      cases es with
      | nil => cases he
      | cons a l => rfl
    have hsome : (es.find? (fun e' => !(pyTruthy (getattrI e' "id")))).isSome :=
      List.find?_isSome.mpr ⟨e, he, by simp [hid]⟩
    obtain ⟨w, hw⟩ := Option.isSome_iff_exists.mp hsome
    refine ⟨"Cannot update entity without an id: " ++ w.table_name ++ " instance", ?_⟩
    simp [update_many, hne, hw]

/-- A saved instance of the `Book` entity (`id = 5`). -/
def bookSaved : EntityInstance :=
  ⟨"books", [fId, fAuthorId],
    [("id", some (Value.vInt 5)), ("author_id", some (Value.vInt 3))]⟩

/-- Concrete witness for C9: the unsaved `bookNew` fails `update`/`delete`,
and a mixed batch fails `update_many`. -/
theorem c9_missing_id_fails_before_io_witness :
    entityUpdate bookNew = Except.error (OrmError.valueError
      "Cannot update entity without an id. Use insert() for new entities.") ∧
    entityDelete bookNew = Except.error (OrmError.valueError
      "Cannot delete entity without an id.") ∧
    ∃ m, update_many [bookSaved, bookNew]
      = Except.error (OrmError.valueError m) := by
  refine ⟨?_, ?_, ?_⟩
  · exact c9_missing_id_fails_before_io.1 bookNew rfl
  · exact c9_missing_id_fails_before_io.2.1 bookNew rfl
  · exact c9_missing_id_fails_before_io.2.2 [bookSaved, bookNew] bookNew
      (by simp) rfl

/-- C10: after a successful `delete()` the instance's id is reset to
`None`, so an immediate second `delete()` or an `update()` on the same
instance raises without producing any SQL. -/
theorem c10_delete_resets_id :
    ∀ (inst : EntityInstance), pyTruthy (getattrI inst "id") = true →
      entityDelete inst = Except.ok (⟨"DELETE FROM " ++ inst.table_name
          ++ " WHERE id = ?", [getattrI inst "id"]⟩, setattrI inst "id" none) ∧
      getattrI (setattrI inst "id" none) "id" = none ∧
      entityDelete (setattrI inst "id" none)
        = Except.error (OrmError.valueError "Cannot delete entity without an id.") ∧
      entityUpdate (setattrI inst "id" none)
        = Except.error (OrmError.valueError
            "Cannot update entity without an id. Use insert() for new entities.") := by
  intro inst h
  have hset : getattrI (setattrI inst "id" none) "id" = none :=
    getattr_setattr_same inst "id" none
  refine ⟨?_, hset, ?_, ?_⟩
  · simp [entityDelete, h]
  · simp [entityDelete, hset, pyTruthy]
  · simp [entityUpdate, hset, pyTruthy]

/-- Concrete witness for C10 on the saved `Book` instance. -/
theorem c10_delete_resets_id_witness :
    entityDelete bookSaved = Except.ok (⟨"DELETE FROM books WHERE id = ?",
        [some (Value.vInt 5)]⟩, setattrI bookSaved "id" none) ∧
    getattrI (setattrI bookSaved "id" none) "id" = none ∧
    entityDelete (setattrI bookSaved "id" none)
      = Except.error (OrmError.valueError "Cannot delete entity without an id.") ∧
    entityUpdate (setattrI bookSaved "id" none)
      = Except.error (OrmError.valueError
          "Cannot update entity without an id. Use insert() for new entities.") :=
  c10_delete_resets_id bookSaved rfl

end SimpleOrm
